import Mathlib

/-!
Shallow embedding of the dependency-injection core of the foodiary-api
repository (`src/kernel/di/Registry.ts` and `src/kernel/decorators/Schema.ts`).

Modelling choices, all taken from the TypeScript source:

* A constructor function is a value with a `name` string (the registry token,
  `impl.name`) and an object identity `oid : Nat` distinguishing distinct
  constructor objects that may share a name.
* The `Map<string, Registry.Provider>` becomes an association list
  `List (String × Provider)`; `Map.get` is first-match lookup (`findTok`) and
  `Map.set` of an absent key appends at the end.
* `Reflect` metadata (keyed on a constructor object) becomes an association
  list keyed by the constructor's `oid`; `Reflect.defineMetadata` conses
  (so first-match lookup gives last-write-wins) and `Reflect.getMetadata`
  is first-match lookup (`findMeta`).
* JavaScript object allocation (`new provider.impl(...deps)`) is made explicit
  by threading an allocation counter: every constructed instance receives a
  fresh allocation identifier, so object identity and freshness are provable.
* `Registry.resolve` recurses through the provider table with no guard, so it
  is embedded with an explicit recursion-depth fuel; exhausting the fuel
  yields the `diverge` marker, the fuel-semantics image of unbounded
  recursion.  A `throw` becomes an `err` result carrying the error.
-/

/-- A constructor function: its `name` (used by the registry as the token) and
its object identity, which distinguishes two different constructor objects
even when their names coincide. -/
structure Constructor where
  name : String
  oid : Nat
deriving DecidableEq, Repr

/-- An entry of the provider table, from `Registry.ts`: the registered
constructor together with its dependency list read from
`design:paramtypes` metadata at registration time. -/
structure Provider where
  impl : Constructor
  deps : List Constructor
deriving DecidableEq, Repr

/-- The errors Registry.ts throws: duplicate registration (from `register`)
and unregistered token (from `resolve`), each carrying the token named in the
thrown message. -/
inductive DIError where
  | duplicateRegistration (token : String)
  | unregistered (token : String)
deriving DecidableEq, Repr

/-- Result of a fuel-bounded computation: a value, a thrown error, or
`diverge` when the recursion-depth fuel ran out (the embedding of unbounded
recursion). -/
inductive Res (α : Type) where
  | ok : α → Res α
  | err : DIError → Res α
  | diverge : Res α
deriving DecidableEq, Repr

/-- A constructed object: its allocation identity (each `new` allocates a
fresh one), the `oid` of the constructor that built it, and the argument
instances passed to that constructor, in order. -/
inductive Instance where
  | mk (oid : Nat) (ctorId : Nat) (args : List Instance)
deriving Repr

/-- Allocation identity of an instance. -/
def Instance.oid : Instance → Nat
  | .mk i _ _ => i

/-- The `oid` of the constructor that built this instance. -/
def Instance.ctor : Instance → Nat
  | .mk _ c _ => c

/-- The argument instances the constructor was invoked with, in order. -/
def Instance.args : Instance → List Instance
  | .mk _ _ a => a

/-- First-match lookup in the provider table, the embedding of
`this.providers.get(token)` / `this.providers.has(token)`. -/
def findTok : List (String × Provider) → String → Option Provider
  | [], _ => none
  | (k, v) :: ps, token => if k = token then some v else findTok ps token

/-- First-match lookup in a `Reflect` metadata side table keyed by constructor
object identity: the embedding of `Reflect.getMetadata(key, target)`. -/
def findMeta {α : Type} : List (Nat × α) → Nat → Option α
  | [], _ => none
  | (k, v) :: s, oid => if k = oid then some v else findMeta s oid

/-- Embedding of `Registry.register(impl)`: with `meta` the ambient
`design:paramtypes` metadata, if `impl.name` is already a key the call throws
a duplicate-registration error and the table is returned unchanged; otherwise
the dependency list is read from metadata (`?? []` becomes `getD []`) and a
new entry is appended. -/
def register (meta : List (Nat × List Constructor)) (ps : List (String × Provider))
    (impl : Constructor) : Except DIError Unit × List (String × Provider) :=
  let token := impl.name
  if (findTok ps token).isSome then
    (Except.error (DIError.duplicateRegistration token), ps)
  else
    let deps := (findMeta meta impl.oid).getD []
    (Except.ok (), ps ++ [(token, ⟨impl, deps⟩)])

/-- Embedding of `provider.deps.map(dep => this.resolve(dep))`: resolve the
dependency list left to right, threading the allocation counter, propagating
a thrown error or divergence of any element. `res` is the resolver applied to
each element (the recursive `this.resolve` at one greater call depth). -/
def resolveList
    (res : List (String × Provider) → Nat → Constructor → Res (Instance × Nat)) :
    List (String × Provider) → Nat → List Constructor → Res (List Instance × Nat)
  | _, ctr, [] => .ok ([], ctr)
  | ps, ctr, d :: ds =>
    match res ps ctr d with
    | .ok (inst, ctr1) =>
      match resolveList res ps ctr1 ds with
      | .ok (insts, ctr2) => .ok (inst :: insts, ctr2)
      | .err e => .err e
      | .diverge => .diverge
    | .err e => .err e
    | .diverge => .diverge

/-- Embedding of `Registry.resolve(impl)`, bounded by recursion-depth fuel:
look the token `impl.name` up in the table, throw an unregistered error if
absent, otherwise resolve the declared dependencies in order (each one at one
greater depth, hence with one less fuel) and then invoke the registered
constructor on them, allocating a fresh instance. -/
def resolveFuel : Nat → List (String × Provider) → Nat → Constructor → Res (Instance × Nat)
  | 0, _, _, _ => .diverge
  | n + 1, ps, ctr, impl =>
    match findTok ps impl.name with
    | none => .err (DIError.unregistered impl.name)
    | some p =>
      match resolveList (resolveFuel n) ps ctr p.deps with
      | .ok (args, ctr1) => .ok (Instance.mk ctr1 p.impl.oid args, ctr1 + 1)
      | .err e => .err e
      | .diverge => .diverge

/-- State-threaded variant of `resolveList`, passing the provider table
through every call exactly as the mutable `this.providers` is in the source,
so that the frame property "resolution never changes the table" is statable. -/
def resolveListS
    (res : List (String × Provider) → Nat → Constructor →
      Res (Instance × Nat) × List (String × Provider)) :
    List (String × Provider) → Nat → List Constructor →
      Res (List Instance × Nat) × List (String × Provider)
  | ps, ctr, [] => (.ok ([], ctr), ps)
  | ps, ctr, d :: ds =>
    match res ps ctr d with
    | (.ok (inst, ctr1), ps1) =>
      match resolveListS res ps1 ctr1 ds with
      | (.ok (insts, ctr2), ps2) => (.ok (inst :: insts, ctr2), ps2)
      | (.err e, ps2) => (.err e, ps2)
      | (.diverge, ps2) => (.diverge, ps2)
    | (.err e, ps1) => (.err e, ps1)
    | (.diverge, ps1) => (.diverge, ps1)

/-- State-threaded variant of `resolveFuel`: identical to the source method,
but returning the provider table it finishes with, so the theorem that the
table comes back unchanged is a statement rather than a convention. -/
def resolveS : Nat → List (String × Provider) → Nat → Constructor →
    Res (Instance × Nat) × List (String × Provider)
  | 0, ps, _, _ => (.diverge, ps)
  | n + 1, ps, ctr, impl =>
    match findTok ps impl.name with
    | none => (.err (DIError.unregistered impl.name), ps)
    | some p =>
      match resolveListS (resolveS n) ps ctr p.deps with
      | (.ok (args, ctr1), ps1) => (.ok (Instance.mk ctr1 p.impl.oid args, ctr1 + 1), ps1)
      | (.err e, ps1) => (.err e, ps1)
      | (.diverge, ps1) => (.diverge, ps1)

/-- Embedding of the `Schema` decorator from `Schema.ts`:
`Reflect.defineMetadata(SCHEMA_METADATA_KEY, schema, target)` on the ambient
single-key metadata store, keyed by the target constructor's object identity.
A later definition shadows an earlier one (last-write-wins). -/
def Schema {α : Type} (store : List (Nat × α)) (schema : α) (target : Constructor) :
    List (Nat × α) :=
  (target.oid, schema) :: store

/-- Embedding of `getSchema(target)` from `Schema.ts`:
`Reflect.getMetadata(SCHEMA_METADATA_KEY, target.constructor)` — a pure read
on the store, keyed by the constructor that built the given instance,
returning `none` (JavaScript `undefined`) when no schema was attached. -/
def getSchema {α : Type} (store : List (Nat × α)) (target : Instance) : Option α :=
  findMeta store target.ctor

mutual

/-- All allocation identities occurring in an instance tree, in allocation
order (arguments were allocated before the instance itself). -/
def Instance.ids : Instance → List Nat
  | .mk i _ args => idsList args ++ [i]

/-- Concatenated allocation identities of a list of instance trees. -/
def idsList : List Instance → List Nat
  | [] => []
  | a :: as => Instance.ids a ++ idsList as

end

/-- Example fixture: a dependency-free constructor `C`. -/
def ctorC : Constructor := ⟨"C", 0⟩

/-- Example fixture: constructor `A`, declared to depend on `C`. -/
def ctorA : Constructor := ⟨"A", 1⟩

/-- Example fixture: a dependency-free constructor `B`. -/
def ctorB : Constructor := ⟨"B", 2⟩

/-- Example fixture: constructor `Root`, declared to depend on `A` then `B`. -/
def ctorRoot : Constructor := ⟨"Root", 3⟩

/-- Example `design:paramtypes` metadata: `Root` depends on `[A, B]`, `A` on
`[C]`, and `B` and `C` on nothing. -/
def exMeta : List (Nat × List Constructor) :=
  [(0, []), (1, [ctorC]), (2, []), (3, [ctorA, ctorB])]

/-- Example provider table: `C`, `A`, `B`, `Root` registered in that order. -/
def exReg : List (String × Provider) :=
  (register exMeta ((register exMeta ((register exMeta
    ((register exMeta [] ctorC).2) ctorA).2) ctorB).2) ctorRoot).2

/-- The instance tree resolving `Root` in `exReg` produces: allocation order
is `C` (0), then `A(C)` (1), then `B()` (2), then `Root(A, B)` (3). -/
def exTree : Instance :=
  Instance.mk 3 ctorRoot.oid
    [Instance.mk 1 ctorA.oid [Instance.mk 0 ctorC.oid []],
     Instance.mk 2 ctorB.oid []]

/-- Diamond fixture: a dependency-free constructor `C2` shared by two
branches. -/
def ctorC2 : Constructor := ⟨"C2", 10⟩

/-- Diamond fixture: constructor `A2`, depending on `C2`. -/
def ctorA2 : Constructor := ⟨"A2", 11⟩

/-- Diamond fixture: constructor `B2`, also depending on `C2`. -/
def ctorB2 : Constructor := ⟨"B2", 12⟩

/-- Diamond fixture: constructor `Root2`, depending on `A2` then `B2`, so the
type `C2` occurs in two branches of its graph. -/
def ctorRoot2 : Constructor := ⟨"Root2", 13⟩

/-- Metadata for the diamond fixture. -/
def dMeta : List (Nat × List Constructor) :=
  [(10, []), (11, [ctorC2]), (12, [ctorC2]), (13, [ctorA2, ctorB2])]

/-- Provider table for the diamond fixture. -/
def dReg : List (String × Provider) :=
  (register dMeta ((register dMeta ((register dMeta
    ((register dMeta [] ctorC2).2) ctorA2).2) ctorB2).2) ctorRoot2).2

/-- First resolution of `Root2` in `dReg`: the shared type `C2` is
instantiated twice, as allocations 0 and 2. -/
def dTree : Instance :=
  Instance.mk 4 ctorRoot2.oid
    [Instance.mk 1 ctorA2.oid [Instance.mk 0 ctorC2.oid []],
     Instance.mk 3 ctorB2.oid [Instance.mk 2 ctorC2.oid []]]

/-- Second, consecutive resolution of `Root2` in `dReg`: a structurally equal
tree made of five entirely fresh allocations. -/
def dTree2 : Instance :=
  Instance.mk 9 ctorRoot2.oid
    [Instance.mk 6 ctorA2.oid [Instance.mk 5 ctorC2.oid []],
     Instance.mk 8 ctorB2.oid [Instance.mk 7 ctorC2.oid []]]

/-- Cycle fixture: constructor `CycA`, depending on `CycB`. -/
def cycA : Constructor := ⟨"CycA", 20⟩

/-- Cycle fixture: constructor `CycB`, depending on `CycA`. -/
def cycB : Constructor := ⟨"CycB", 21⟩

/-- Metadata declaring the two-cycle `CycA → CycB → CycA`. -/
def cycMeta : List (Nat × List Constructor) := [(20, [cycB]), (21, [cycA])]

/-- Provider table with both members of the cycle registered. -/
def cycReg : List (String × Provider) :=
  (register cycMeta ((register cycMeta [] cycA).2) cycB).2

/-- Missing-dependency fixture: a constructor that is never registered. -/
def ctorMissing : Constructor := ⟨"Missing", 30⟩

/-- Missing-dependency fixture: `B3` depends on the unregistered `Missing`. -/
def ctorB3 : Constructor := ⟨"B3", 31⟩

/-- Missing-dependency fixture: `A3` depends on `B3`. -/
def ctorA3 : Constructor := ⟨"A3", 32⟩

/-- Missing-dependency fixture: `Root3` depends on `A3`, so the unregistered
`Missing` sits three levels below the root request. -/
def ctorRoot3 : Constructor := ⟨"Root3", 33⟩

/-- Metadata for the missing-dependency fixture. -/
def mMeta : List (Nat × List Constructor) :=
  [(31, [ctorMissing]), (32, [ctorB3]), (33, [ctorA3])]

/-- Provider table registering `B3`, `A3`, `Root3` but not `Missing`. -/
def mReg : List (String × Provider) :=
  (register mMeta ((register mMeta ((register mMeta [] ctorB3).2) ctorA3).2) ctorRoot3).2

/-- Gluing lemma for contiguous half-open ranges of allocation identities. -/
theorem range'_glue {a b c : Nat} (hab : a ≤ b) (hbc : b ≤ c) :
    List.range' a (b - a) ++ List.range' b (c - b) = List.range' a (c - a) := by
  have h := List.range'_append a (b - a) (c - b) 1
  have hb : a + 1 * (b - a) = b := by omega
  rw [hb] at h
  rw [h]
  congr 1
  omega

/-- Dependency-list resolution allocates exactly the identities in the
half-open counter interval it consumes, in counter order, provided each
single resolution does. -/
theorem resolveList_range
    (res : List (String × Provider) → Nat → Constructor → Res (Instance × Nat))
    (H : ∀ ps ctr impl inst ctr1, res ps ctr impl = .ok (inst, ctr1) →
      ctr < ctr1 ∧ Instance.ids inst = List.range' ctr (ctr1 - ctr) ∧ inst.oid = ctr1 - 1) :
    ∀ ps ctr ds args ctr1, resolveList res ps ctr ds = .ok (args, ctr1) →
      ctr ≤ ctr1 ∧ idsList args = List.range' ctr (ctr1 - ctr) := by
  intro ps ctr ds
  induction ds generalizing ctr with
  | nil =>
    intro args ctr1 h
    simp only [resolveList] at h
    cases h
    simp [idsList]
  | cons d ds ih =>
    intro args ctr1 h
    simp only [resolveList] at h
    split at h
    · rename_i inst c1 hres
      split at h
      · rename_i insts c2 hl
        cases h
        obtain ⟨hlt, hids, _⟩ := H ps ctr d inst c1 hres
        obtain ⟨hle, hids2⟩ := ih c1 insts ctr1 hl
        refine ⟨by omega, ?_⟩
        rw [idsList, hids, hids2, range'_glue (by omega) hle]
      · cases h
      · cases h
    · cases h
    · cases h

/-- A successful resolution starting at counter `ctr` returns at a strictly
larger counter, allocates exactly the identities `ctr, ctr+1, …` of the
half-open interval it consumed (arguments first, in declaration order), and
the returned root instance is the last allocation. -/
theorem resolveFuel_range :
    ∀ n ps ctr impl inst ctr1, resolveFuel n ps ctr impl = .ok (inst, ctr1) →
      ctr < ctr1 ∧ Instance.ids inst = List.range' ctr (ctr1 - ctr) ∧ inst.oid = ctr1 - 1 := by
  intro n
  induction n with
  | zero => intro ps ctr impl inst ctr1 h; cases h
  | succ n ih =>
    intro ps ctr impl inst ctr1 h
    simp only [resolveFuel] at h
    split at h
    · cases h
    · rename_i p hf
      split at h
      · rename_i args c1 hl
        cases h
        obtain ⟨hle, hids⟩ := resolveList_range (resolveFuel n) ih ps ctr p.deps args c1 hl
        refine ⟨by omega, ?_, by simp [Instance.oid]⟩
        have hone : [c1] = List.range' c1 (c1 + 1 - c1) := by
          have h1 : c1 + 1 - c1 = 1 := by omega
          rw [h1, List.range'_one]
        rw [Instance.ids, hids, hone, range'_glue hle (by omega)]
      · cases h
      · cases h

/-- Any error escaping dependency-list resolution is an unregistered-token
error naming a token genuinely absent from the table, provided each single
resolution has that property. -/
theorem resolveList_err_sound
    (res : List (String × Provider) → Nat → Constructor → Res (Instance × Nat))
    (H : ∀ ps ctr impl e, res ps ctr impl = .err e →
      ∃ nm, e = DIError.unregistered nm ∧ findTok ps nm = none) :
    ∀ ps ctr ds e, resolveList res ps ctr ds = .err e →
      ∃ nm, e = DIError.unregistered nm ∧ findTok ps nm = none := by
  intro ps ctr ds
  induction ds generalizing ctr with
  | nil => intro e h; simp only [resolveList] at h; cases h
  | cons d ds ih =>
    intro e h
    simp only [resolveList] at h
    split at h
    · rename_i inst c1 hres
      split at h
      · cases h
      · rename_i e2 hl; cases h; exact ih c1 e hl
      · cases h
    · rename_i e2 hres; cases h; exact H ps ctr d e hres
    · cases h

/-- Any error thrown by `resolve` is an unregistered-token error, and the
token it names really has no entry in the provider table. -/
theorem resolveFuel_err_sound :
    ∀ n ps ctr impl e, resolveFuel n ps ctr impl = .err e →
      ∃ nm, e = DIError.unregistered nm ∧ findTok ps nm = none := by
  intro n
  induction n with
  | zero => intro ps ctr impl e h; cases h
  | succ n ih =>
    intro ps ctr impl e h
    simp only [resolveFuel] at h
    split at h
    · rename_i hf; cases h; exact ⟨impl.name, rfl, hf⟩
    · rename_i p hf
      split at h
      · cases h
      · rename_i e2 hl
        cases h
        exact resolveList_err_sound (resolveFuel n) ih ps ctr p.deps e hl
      · cases h

/-- Dependency-list resolution hands the provider table back unchanged
whenever each single resolution does. -/
theorem resolveListS_frame
    (res : List (String × Provider) → Nat → Constructor →
      Res (Instance × Nat) × List (String × Provider))
    (H : ∀ ps ctr impl, (res ps ctr impl).2 = ps) :
    ∀ ps ctr ds, (resolveListS res ps ctr ds).2 = ps := by
  intro ps ctr ds
  induction ds generalizing ps ctr with
  | nil => rfl
  | cons d ds ih =>
    simp only [resolveListS]
    have hres := H ps ctr d
    split
    · rename_i inst c1 ps1 hr
      have hps1 : ps1 = ps := by rw [hr] at hres; exact hres
      rw [hps1]
      have hrec := ih ps c1
      split
      · rename_i insts c2 ps2 hl
        rw [hl] at hrec; exact hrec
      · rename_i e ps2 hl
        rw [hl] at hrec; exact hrec
      · rename_i ps2 hl
        rw [hl] at hrec; exact hrec
    · rename_i e ps1 hr
      rw [hr] at hres; exact hres
    · rename_i ps1 hr
      rw [hr] at hres; exact hres

/-- The state-threaded resolver returns the provider table unchanged: the
source method only ever reads `this.providers`. -/
theorem resolveS_frame :
    ∀ n ps ctr impl, (resolveS n ps ctr impl).2 = ps := by
  intro n
  induction n with
  | zero => intro ps ctr impl; rfl
  | succ n ih =>
    intro ps ctr impl
    simp only [resolveS]
    split
    · rfl
    · rename_i p _
      have hrec := resolveListS_frame (resolveS n) (ih) ps ctr p.deps
      split
      · rename_i args c1 ps1 hl
        rw [hl] at hrec; exact hrec
      · rename_i e ps1 hl
        rw [hl] at hrec; exact hrec
      · rename_i ps1 hl
        rw [hl] at hrec; exact hrec

/-- On lists, the state-threaded resolver computes the same result as the
read-only one, whenever the element resolvers agree and preserve the table. -/
theorem resolveListS_fst
    (res : List (String × Provider) → Nat → Constructor →
      Res (Instance × Nat) × List (String × Provider))
    (resP : List (String × Provider) → Nat → Constructor → Res (Instance × Nat))
    (Hframe : ∀ ps ctr impl, (res ps ctr impl).2 = ps)
    (Hfst : ∀ ps ctr impl, (res ps ctr impl).1 = resP ps ctr impl) :
    ∀ ps ctr ds, (resolveListS res ps ctr ds).1 = resolveList resP ps ctr ds := by
  intro ps ctr ds
  induction ds generalizing ps ctr with
  | nil => rfl
  | cons d ds ih =>
    simp only [resolveListS, resolveList]
    have hres : res ps ctr d = (resP ps ctr d, ps) := by
      have h1 := Hframe ps ctr d
      have h2 := Hfst ps ctr d
      cases hr : res ps ctr d with
      | mk a b =>
        rw [hr] at h1 h2
        simp only at h1 h2
        rw [h1, h2]
    rw [hres]
    cases hp : resP ps ctr d with
    | ok v =>
      obtain ⟨inst, c1⟩ := v
      simp only
      have hrec := ih ps c1
      cases hl : resolveListS res ps c1 ds with
      | mk r2 ps2 =>
        rw [hl] at hrec
        simp only at hrec
        rw [← hrec]
        cases r2 with
        | ok w => obtain ⟨insts, c2⟩ := w; rfl
        | err e => rfl
        | diverge => rfl
    | err e => rfl
    | diverge => rfl

/-- The state-threaded resolver computes the same result as the read-only
one: the two embeddings of `Registry.resolve` agree. -/
theorem resolveS_fst :
    ∀ n ps ctr impl, (resolveS n ps ctr impl).1 = resolveFuel n ps ctr impl := by
  intro n
  induction n with
  | zero => intro ps ctr impl; rfl
  | succ n ih =>
    intro ps ctr impl
    simp only [resolveS, resolveFuel]
    cases hf : findTok ps impl.name with
    | none => rfl
    | some p =>
      simp only
      have hlist := resolveListS_fst (resolveS n) (resolveFuel n) (resolveS_frame n) ih ps ctr p.deps
      cases hl : resolveListS (resolveS n) ps ctr p.deps with
      | mk r ps1 =>
        rw [hl] at hlist
        simp only at hlist
        rw [← hlist]
        cases r with
        | ok v => obtain ⟨args, c1⟩ := v; rfl
        | err e => rfl
        | diverge => rfl

/-- A token found in a table is still found, with the same entry, after
appending entries on the right (new registrations never shadow old ones). -/
theorem findTok_append_some {ps qs : List (String × Provider)} {k : String} {v : Provider}
    (h : findTok ps k = some v) : findTok (ps ++ qs) k = some v := by
  induction ps with
  | nil => cases h
  | cons kv ps ih =>
    obtain ⟨k1, v1⟩ := kv
    simp only [findTok, List.cons_append] at h ⊢
    split at h
    · rename_i hk
      cases h
      rw [if_pos hk]
    · rename_i hne
      rw [if_neg hne]
      exact ih h

/-- Looking a token up after appending, when the token is absent from the
left part, is a lookup in the appended part. -/
theorem findTok_append_none {ps qs : List (String × Provider)} {k : String}
    (h : findTok ps k = none) : findTok (ps ++ qs) k = findTok qs k := by
  induction ps with
  | nil => rfl
  | cons kv ps ih =>
    obtain ⟨k1, v1⟩ := kv
    simp only [findTok, List.cons_append] at h ⊢
    split at h
    · cases h
    · rename_i hne
      rw [if_neg hne]
      exact ih h

/-- The requested identity together with its whole transitive dependency
graph is registered and acyclic, with resolution depth at most the stated
bound: there is an entry for the identity and every declared dependency is
resolvable within one less depth. -/
inductive Resolvable (ps : List (String × Provider)) : Constructor → Nat → Prop
  | step (impl : Constructor) (p : Provider) (n : Nat) :
      findTok ps impl.name = some p →
      (∀ d ∈ p.deps, Resolvable ps d n) →
      Resolvable ps impl (n + 1)

/-- Dependency-list resolution succeeds for any starting counter when every
element does. -/
theorem resolveList_total
    (res : List (String × Provider) → Nat → Constructor → Res (Instance × Nat))
    (ps : List (String × Provider)) (ds : List Constructor)
    (H : ∀ d ∈ ds, ∀ ctr, ∃ inst ctr1, res ps ctr d = .ok (inst, ctr1)) :
    ∀ ctr, ∃ args ctr1, resolveList res ps ctr ds = .ok (args, ctr1) := by
  induction ds with
  | nil => intro ctr; exact ⟨[], ctr, rfl⟩
  | cons d ds ih =>
    intro ctr
    obtain ⟨inst, c1, h1⟩ := H d (by simp) ctr
    obtain ⟨insts, c2, h2⟩ := ih (fun d hd => H d (by simp [hd])) c1
    refine ⟨inst :: insts, c2, ?_⟩
    simp only [resolveList, h1, h2]

/-- When the whole dependency graph of the requested identity is registered
and acyclic with depth at most `n`, resolution with fuel `n` succeeds from
any starting counter: the recursion is bounded by the graph's depth. -/
theorem resolveFuel_total {ps : List (String × Provider)} {impl : Constructor} {n : Nat}
    (h : Resolvable ps impl n) :
    ∀ ctr, ∃ inst ctr1, resolveFuel n ps ctr impl = .ok (inst, ctr1) := by
  induction h with
  | step impl p n hf hdeps ih =>
    intro ctr
    obtain ⟨args, c1, hl⟩ := resolveList_total (resolveFuel n) ps p.deps ih ctr
    refine ⟨Instance.mk c1 p.impl.oid args, c1 + 1, ?_⟩
    simp only [resolveFuel, hf, hl]

/-- Registering an already-present token throws a duplicate-registration
error naming the token and leaves the table exactly as it was. -/
theorem register_present {meta : List (Nat × List Constructor)}
    {ps : List (String × Provider)} {impl : Constructor}
    (h : (findTok ps impl.name).isSome) :
    register meta ps impl = (Except.error (DIError.duplicateRegistration impl.name), ps) := by
  simp [register, h]

/-- Registering an absent token succeeds and appends exactly one entry, whose
dependency list is the `design:paramtypes` metadata (defaulted to `[]`). -/
theorem register_absent {meta : List (Nat × List Constructor)}
    {ps : List (String × Provider)} {impl : Constructor}
    (h : findTok ps impl.name = none) :
    register meta ps impl =
      (Except.ok (), ps ++ [(impl.name, ⟨impl, (findMeta meta impl.oid).getD []⟩)]) := by
  simp [register, h]

/-- C1: resolution is depth-first and order-preserving.  Whenever `resolve`
succeeds, the requested identity's entry was looked up, the declared
dependencies were resolved in declaration order (their allocation
identities form, in that order, the contiguous counter interval consumed
before the root), the constructor received exactly those instances in that
order, and the root itself was allocated only after every dependency.
Concretely, for `Root` with dependencies `[A, B]` where `A` depends on `[C]`,
the construction order is `C` (allocation 0), `A(C)` (1), `B()` (2), then
`Root(A, B)` (3). -/
theorem resolve_depth_first_order :
    (∀ n ps ctr impl inst ctr1,
      resolveFuel (n + 1) ps ctr impl = .ok (inst, ctr1) →
      ∃ p args, findTok ps impl.name = some p ∧
        resolveList (resolveFuel n) ps ctr p.deps = .ok (args, ctr1 - 1) ∧
        inst = Instance.mk (ctr1 - 1) p.impl.oid args ∧
        idsList args = List.range' ctr (ctr1 - 1 - ctr) ∧
        ∀ i ∈ idsList args, i < inst.oid) ∧
    resolveFuel 4 exReg 0 ctorRoot = .ok (exTree, 4) := by
  constructor
  · intro n ps ctr impl inst ctr1 h
    simp only [resolveFuel] at h
    split at h
    · cases h
    · rename_i p hf
      split at h
      · rename_i args c1 hl
        cases h
        obtain ⟨hle, hids⟩ :=
          resolveList_range (resolveFuel n) (resolveFuel_range n) ps ctr p.deps args c1 hl
        refine ⟨p, args, hf, ?_, ?_, ?_, ?_⟩
        · simpa using hl
        · simp
        · simpa using hids
        · intro i hi
          rw [hids, List.mem_range'_1] at hi
          simp only [Instance.oid]
          omega
      · cases h
      · cases h
  · rfl

/-- Witness for C1 at the four-constructor example. -/
theorem resolve_depth_first_order_witness :
    ∃ p args, findTok exReg ctorRoot.name = some p ∧
      resolveList (resolveFuel 3) exReg 0 p.deps = .ok (args, 4 - 1) ∧
      exTree = Instance.mk (4 - 1) p.impl.oid args ∧
      idsList args = List.range' 0 (4 - 1 - 0) ∧
      ∀ i ∈ idsList args, i < exTree.oid :=
  resolve_depth_first_order.1 3 exReg 0 ctorRoot exTree 4 resolve_depth_first_order.2

/-- C2: any error escaping `resolve` is an unregistered-token error naming a
token that really has no entry in the table; a root request for an absent
token fails immediately with that token's name; and in the concrete fixture
the identity `Missing`, three levels below the request `Root3`, is the one
named in the failure. -/
theorem resolve_unregistered_error :
    (∀ n ps ctr impl e, resolveFuel n ps ctr impl = .err e →
      ∃ nm, e = DIError.unregistered nm ∧ findTok ps nm = none) ∧
    (∀ n ps ctr impl, findTok ps impl.name = none →
      resolveFuel (n + 1) ps ctr impl = .err (DIError.unregistered impl.name)) ∧
    resolveFuel 4 mReg 0 ctorRoot3 = .err (DIError.unregistered "Missing") := by
  refine ⟨resolveFuel_err_sound, ?_, rfl⟩
  intro n ps ctr impl h
  simp [resolveFuel, h]

/-- Witness for C2 at the three-levels-deep missing dependency. -/
theorem resolve_unregistered_error_witness :
    ∃ nm, DIError.unregistered "Missing" = DIError.unregistered nm ∧ findTok mReg nm = none :=
  resolve_unregistered_error.1 4 mReg 0 ctorRoot3 (DIError.unregistered "Missing")
    resolve_unregistered_error.2.2

/-- C3: a second registration of an already-present identity throws a
duplicate-registration error naming it, and the provider table afterwards is
exactly the table before — the first registration's entry is intact and no
entry is added, removed, or modified. -/
theorem register_duplicate_keeps_table :
    ∀ (meta : List (Nat × List Constructor)) (ps : List (String × Provider))
      (impl : Constructor) (p : Provider), findTok ps impl.name = some p →
      register meta ps impl = (Except.error (DIError.duplicateRegistration impl.name), ps) := by
  intro meta ps impl p h
  exact register_present (by rw [h]; rfl)

/-- Witness for C3: re-registering `A` in the example table. -/
theorem register_duplicate_keeps_table_witness :
    register exMeta exReg ctorA = (Except.error (DIError.duplicateRegistration "A"), exReg) :=
  register_duplicate_keeps_table exMeta exReg ctorA ⟨ctorA, [ctorC]⟩ rfl

/-- C4: the code has no cycle detection.  On the registered two-cycle
`CycA → CycB → CycA`, resolution of either member recurses without bound:
for every recursion-depth budget the fuel-bounded embedding exhausts its
fuel instead of returning an instance or a `CyclicDependency` error (no such
error even exists in the code). -/
theorem resolve_cycle_diverges :
    ∀ n ctr, resolveFuel n cycReg ctr cycA = .diverge ∧
      resolveFuel n cycReg ctr cycB = .diverge := by
  intro n
  induction n with
  | zero => intro ctr; exact ⟨rfl, rfl⟩
  | succ n ih =>
    intro ctr
    constructor
    · have hA : findTok cycReg cycA.name = some ⟨cycA, [cycB]⟩ := rfl
      have hB := (ih ctr).2
      simp only [resolveFuel, hA, resolveList, hB]
    · have hA : findTok cycReg cycB.name = some ⟨cycB, [cycA]⟩ := rfl
      have hB := (ih ctr).1
      simp only [resolveFuel, hA, resolveList, hB]

/-- C5: no caching and no instance reuse.  Two consecutive resolutions of the
same identity (the second starting from the allocation counter the first
finished at) return instances whose allocation identities are disjoint — in
particular distinct root objects — and within a single resolution every
allocation identity occurs once, so a shared dependency type appearing in
several branches is re-instantiated each time.  Concretely, in the diamond
fixture both resolutions of `Root2` build two fresh `C2` instances each. -/
theorem resolve_no_instance_reuse :
    (∀ n ps impl inst1 c1 inst2 c2,
      resolveFuel n ps 0 impl = .ok (inst1, c1) →
      resolveFuel n ps c1 impl = .ok (inst2, c2) →
      inst1.oid ≠ inst2.oid ∧
      (∀ i ∈ Instance.ids inst1, i ∉ Instance.ids inst2) ∧
      (Instance.ids inst1).Nodup ∧ (Instance.ids inst2).Nodup) ∧
    resolveFuel 4 dReg 0 ctorRoot2 = .ok (dTree, 5) ∧
    resolveFuel 4 dReg 5 ctorRoot2 = .ok (dTree2, 10) := by
  refine ⟨?_, rfl, rfl⟩
  intro n ps impl inst1 c1 inst2 c2 h1 h2
  obtain ⟨hlt1, hids1, hoid1⟩ := resolveFuel_range n ps 0 impl inst1 c1 h1
  obtain ⟨hlt2, hids2, hoid2⟩ := resolveFuel_range n ps c1 impl inst2 c2 h2
  refine ⟨by omega, ?_, ?_, ?_⟩
  · intro i hi
    rw [hids1, List.mem_range'_1] at hi
    rw [hids2, List.mem_range'_1]
    omega
  · rw [hids1]; exact List.nodup_range' _ _
  · rw [hids2]; exact List.nodup_range' _ _

/-- Witness for C5 at the diamond fixture: the two consecutive resolutions of
`Root2` share no allocation. -/
theorem resolve_no_instance_reuse_witness :
    dTree.oid ≠ dTree2.oid ∧
    (∀ i ∈ Instance.ids dTree, i ∉ Instance.ids dTree2) ∧
    (Instance.ids dTree).Nodup ∧ (Instance.ids dTree2).Nodup :=
  resolve_no_instance_reuse.1 4 dReg ctorRoot2 dTree 5 dTree2 10
    resolve_no_instance_reuse.2.1 resolve_no_instance_reuse.2.2

/-- C6: the provider table is never mutated by resolution — the
state-threaded embedding of `resolve` returns the table it was given,
whether it succeeds, throws, or diverges — and it changes only through
`register`, which either leaves the table untouched (duplicate) or appends
one new entry for a previously absent token; every pre-existing entry is
still found, unchanged, after any registration. -/
theorem providers_frame :
    (∀ n ps ctr impl, (resolveS n ps ctr impl).2 = ps) ∧
    (∀ (meta : List (Nat × List Constructor)) (ps : List (String × Provider))
      (impl : Constructor) (k : String) (v : Provider), findTok ps k = some v →
      findTok (register meta ps impl).2 k = some v) ∧
    (∀ (meta : List (Nat × List Constructor)) (ps : List (String × Provider))
      (impl : Constructor), (register meta ps impl).2 = ps ∨
      (findTok ps impl.name = none ∧
        (register meta ps impl).2 =
          ps ++ [(impl.name, ⟨impl, (findMeta meta impl.oid).getD []⟩)])) := by
  refine ⟨resolveS_frame, ?_, ?_⟩
  · intro meta ps impl k v h
    cases habs : findTok ps impl.name with
    | none => rw [register_absent habs]; exact findTok_append_some h
    | some q =>
      rw [register_present (by rw [habs]; rfl)]
      exact h
  · intro meta ps impl
    cases habs : findTok ps impl.name with
    | none => right; exact ⟨rfl, by rw [register_absent habs]⟩
    | some q => left; rw [register_present (by rw [habs]; rfl)]

/-- Witness for C6: registering `Root2` into the example table leaves the
entry for `C` untouched. -/
theorem providers_frame_witness :
    findTok (register dMeta exReg ctorRoot2).2 "C" = some ⟨ctorC, []⟩ :=
  providers_frame.2.1 dMeta exReg ctorRoot2 "C" ⟨ctorC, []⟩ rfl

/-- C7: resolution terminates on a fully registered acyclic graph.  If the
requested identity together with its whole transitive dependency graph is
registered with resolution depth at most `n` (the `Resolvable` bound), then
`resolve` returns an instance within recursion depth `n`, from any
allocation counter. -/
theorem resolve_terminates :
    ∀ (ps : List (String × Provider)) (impl : Constructor) (n : Nat),
      Resolvable ps impl n →
      ∀ ctr, ∃ inst ctr1, resolveFuel n ps ctr impl = .ok (inst, ctr1) :=
  fun _ _ _ h => resolveFuel_total h

/-- Witness for C7: the example graph `Root → [A, B]`, `A → [C]` has depth 3
and resolves within fuel 3. -/
theorem resolve_terminates_witness :
    ∃ inst ctr1, resolveFuel 3 exReg 0 ctorRoot = .ok (inst, ctr1) := by
  refine resolve_terminates exReg ctorRoot 3 ?_ 0
  have hC : Resolvable exReg ctorC 1 := by
    refine .step ctorC ⟨ctorC, []⟩ 0 rfl ?_
    intro d hd
    simp at hd
  have hA : Resolvable exReg ctorA 2 := by
    refine .step ctorA ⟨ctorA, [ctorC]⟩ 1 rfl ?_
    intro d hd
    simp only [List.mem_singleton] at hd
    subst hd
    exact hC
  have hB : Resolvable exReg ctorB 2 := by
    refine .step ctorB ⟨ctorB, []⟩ 1 rfl ?_
    intro d hd
    simp at hd
  refine .step ctorRoot ⟨ctorRoot, [ctorA, ctorB]⟩ 2 rfl ?_
  intro d hd
  simp only [List.mem_cons, List.mem_singleton] at hd
  rcases hd with hd | hd | hd
  · subst hd; exact hA
  · subst hd; exact hB
  · cases hd

/-- C8: attaching a schema twice to the same identity is last-write-wins —
a later `Schema` call shadows the earlier one, with no uniqueness check, and
a subsequent `getSchema` on an instance of that identity returns the second
value. -/
theorem schema_last_write_wins :
    ∀ (α : Type) (store : List (Nat × α)) (target : Constructor) (v1 v2 : α)
      (inst : Instance), inst.ctor = target.oid →
      getSchema (Schema (Schema store v1 target) v2 target) inst = some v2 := by
  intro α store target v1 v2 inst h
  simp [getSchema, Schema, findMeta, h]

/-- Witness for C8: attaching 5 then 9 to `C` and looking up an instance of
`C` yields 9. -/
theorem schema_last_write_wins_witness :
    getSchema (Schema (Schema ([] : List (Nat × Nat)) 5 ctorC) 9 ctorC)
      (Instance.mk 0 ctorC.oid []) = some 9 :=
  schema_last_write_wins Nat [] ctorC 5 9 (Instance.mk 0 ctorC.oid []) rfl

/-- C9: `getSchema` on an identity to which nothing was ever attached — the
store holds no pair keyed by the instance's constructor — returns the
explicit absent result `none` (JavaScript `undefined`), not a default value
and not a thrown error; the read takes the store as a value and does not
change it. -/
theorem getSchema_absent :
    ∀ (α : Type) (store : List (Nat × α)) (inst : Instance),
      (∀ p ∈ store, p.1 ≠ inst.ctor) → getSchema store inst = none := by
  intro α store inst h
  induction store with
  | nil => rfl
  | cons p s ih =>
    obtain ⟨k, v⟩ := p
    simp only [getSchema, findMeta]
    rw [if_neg (h (k, v) (by simp))]
    exact ih fun q hq => h q (by simp [hq])

/-- Witness for C9: a store holding only key 3 yields `none` for an instance
whose constructor is 5. -/
theorem getSchema_absent_witness :
    getSchema [((3 : Nat), (7 : Nat))] (Instance.mk 0 5 []) = none :=
  getSchema_absent Nat [(3, 7)] (Instance.mk 0 5 []) (by decide)

/-- C10: the registry keys on the constructor's name string, not on the
constructor object.  Resolution depends only on the requested constructor's
name; a successful resolution builds the root from the constructor stored in
the table entry (whatever object was passed to `resolve`); and after
registering `c`, registering any different constructor `d` with the same
name fails as a duplicate. -/
theorem token_is_constructor_name :
    (∀ n ps ctr c d, Constructor.name c = Constructor.name d →
      resolveFuel n ps ctr c = resolveFuel n ps ctr d) ∧
    (∀ n ps ctr impl p inst ctr1, findTok ps impl.name = some p →
      resolveFuel n ps ctr impl = .ok (inst, ctr1) → inst.ctor = p.impl.oid) ∧
    (∀ (meta1 meta2 : List (Nat × List Constructor)) (ps : List (String × Provider))
      (c d : Constructor), Constructor.name c = Constructor.name d →
      findTok ps c.name = none →
      (register meta2 (register meta1 ps c).2 d).1 =
        Except.error (DIError.duplicateRegistration d.name)) := by
  refine ⟨?_, ?_, ?_⟩
  · intro n ps ctr c d h
    cases n with
    | zero => rfl
    | succ n => simp only [resolveFuel]; rw [h]
  · intro n ps ctr impl p inst ctr1 hf h
    cases n with
    | zero => cases h
    | succ n =>
      simp only [resolveFuel, hf] at h
      split at h
      · cases h; rfl
      · cases h
      · cases h
  · intro meta1 meta2 ps c d hname habs
    rw [register_absent habs]
    have hfind : findTok (ps ++ [(c.name, ⟨c, (findMeta meta1 c.oid).getD []⟩)]) d.name =
        some ⟨c, (findMeta meta1 c.oid).getD []⟩ := by
      rw [← hname, findTok_append_none habs]
      simp [findTok]
    rw [register_present (by rw [hfind]; rfl)]

/-- Witness for C10: two distinct constructor objects named `X`. -/
theorem token_is_constructor_name_witness :
    (resolveFuel 2 [] 0 (Constructor.mk "X" 40) = resolveFuel 2 [] 0 (Constructor.mk "X" 41)) ∧
    (register [] (register [] [] (Constructor.mk "X" 40)).2 (Constructor.mk "X" 41)).1 =
      Except.error (DIError.duplicateRegistration "X") :=
  ⟨token_is_constructor_name.1 2 [] 0 (Constructor.mk "X" 40) (Constructor.mk "X" 41) rfl,
   token_is_constructor_name.2.2 [] [] [] (Constructor.mk "X" 40) (Constructor.mk "X" 41) rfl rfl⟩
